import Mathlib

/-!
Shallow embedding of the course-manage backend (Express + Prisma route handlers)
and proofs about its business rules.

The database is modelled as lists of records; each route handler becomes a pure
function from the database (or the affected record) to either an error or the
updated database.  Machine numbers are modelled as `Nat`/`Int` (the handlers
validate all numeric inputs to be non-negative integers); money is `Rat`;
timestamps are `Nat` milliseconds.  String metadata fields (names, titles,
descriptions, classrooms, notes) are omitted throughout: no verified property
reads them, and the handlers only copy them verbatim.
-/

deriving instance DecidableEq for Except

namespace CourseManage

/-- User roles (prisma enum Role). -/
inductive Role
  | ADMIN
  | TEACHER
  | STUDENT
deriving DecidableEq

/-- Course lifecycle status (prisma enum CourseStatus). -/
inductive CourseStatus
  | SCHEDULED
  | IN_PROGRESS
  | COMPLETED
  | CANCELLED
deriving DecidableEq

/-- Lesson-package lifecycle status (prisma enum PackageStatus). -/
inductive PackageStatus
  | ACTIVE
  | EXPIRED
  | COMPLETED
  | CANCELLED
deriving DecidableEq

/-- Payment status (prisma enum PaymentStatus). -/
inductive PaymentStatus
  | PENDING
  | PAID
  | FAILED
  | REFUNDED
deriving DecidableEq

/-- Payment method (prisma enum PaymentMethod). -/
inductive PayMethod
  | CASH
  | WECHAT
  | ALIPAY
  | BANK_TRANSFER
deriving DecidableEq

/-- Attendance status (prisma enum AttendanceStatus). -/
inductive AttendanceStatus
  | PRESENT
  | ABSENT
  | LATE
  | LEAVE
deriving DecidableEq

/-- A user row: only the fields the verified handlers read. -/
structure User where
  id : Nat
  role : Role
deriving DecidableEq

/-- A course row.  `currentStudents` is `Int` because the store increments and
decrements it without a lower bound (`currentStudents: { decrement: 1 }`). -/
structure Course where
  id : Nat
  teacherId : Nat
  startTime : Nat
  endTime : Nat
  maxStudents : Nat
  currentStudents : Int
  status : CourseStatus
deriving DecidableEq

/-- A student-course enrollment link (table student_courses, unique per pair). -/
structure StudentCourse where
  studentId : Nat
  courseId : Nat
deriving DecidableEq

/-- A lesson-package row (table course_packages). -/
structure CoursePackage where
  id : Nat
  studentId : Nat
  totalHours : Nat
  usedHours : Nat
  price : Rat
  validDays : Nat
  purchasedAt : Nat
  expiresAt : Nat
  status : PackageStatus
deriving DecidableEq

/-- A payment row (table payments). -/
structure Payment where
  id : Nat
  amount : Rat
  method : PayMethod
  status : PaymentStatus
  studentId : Nat
  packageId : Option Nat
  paidAt : Nat
deriving DecidableEq

/-- An attendance row (table attendance_records, unique per (student, course)). -/
structure AttendanceRecord where
  studentId : Nat
  courseId : Nat
  status : AttendanceStatus
  recordedAt : Nat
deriving DecidableEq

/-- The whole relational store. -/
structure Db where
  users : List User
  courses : List Course
  studentCourses : List StudentCourse
  packages : List CoursePackage
  payments : List Payment
  attendanceRecords : List AttendanceRecord
deriving DecidableEq

/-- prisma.course.findUnique by id. -/
def findCourse (db : Db) (courseId : Nat) : Option Course :=
  db.courses.find? (fun c => c.id == courseId)

/-- prisma.studentCourse.findUnique by the compound key (studentId, courseId). -/
def findLink (db : Db) (studentId courseId : Nat) : Option StudentCourse :=
  db.studentCourses.find? (fun l => l.studentId == studentId && l.courseId == courseId)

/-- prisma.user.findUnique by id. -/
def findUser (db : Db) (userId : Nat) : Option User :=
  db.users.find? (fun u => u.id == userId)

/-- prisma.attendanceRecord.findUnique by the compound key (studentId, courseId). -/
def findAttendance (db : Db) (studentId courseId : Nat) : Option AttendanceRecord :=
  db.attendanceRecords.find? (fun r => r.studentId == studentId && r.courseId == courseId)

/-! ### Lesson packages: POST /packages/:id/consume (backend/src/routes/packages.js) -/

/-- The distinct rejection branches of the consume-hours handler, in source order. -/
inductive ConsumeError
  | packageUnavailable
  | packageExpired
  | insufficientHours
  | courseNotFound
deriving DecidableEq

/-- POST /packages/:id/consume for a package already looked up by id.
Checks, in source order: status must be ACTIVE; expiry must not have passed
(expiresAt < now rejects); remaining hours (total minus used, computed before
truncation, hence over Int) must cover the request; the referenced course must
exist.  On success usedHours grows by the request and the status becomes
COMPLETED when the new usedHours reaches totalHours, else stays ACTIVE. -/
def consumeHours (p : CoursePackage) (hours : Nat) (now : Nat) (courseExists : Bool) :
    Except ConsumeError CoursePackage :=
  if p.status ≠ PackageStatus.ACTIVE then .error .packageUnavailable
  else if p.expiresAt < now then .error .packageExpired
  else if (p.totalHours : Int) - (p.usedHours : Int) < (hours : Int) then .error .insufficientHours
  else if courseExists = false then .error .courseNotFound
  else
    let newUsedHours := p.usedHours + hours
    let newStatus :=
      if p.totalHours ≤ newUsedHours then PackageStatus.COMPLETED else PackageStatus.ACTIVE
    .ok { p with usedHours := newUsedHours, status := newStatus }

/-- The non-string columns of a package row that a PUT /packages/:id body may
carry.  The handler assigns updateData = req.body and passes it straight to
prisma.coursePackage.update (data: updateData); express-validator only checks
name, description and status but strips nothing, so every model column is
writable. -/
structure PackageUpdate where
  id : Option Nat := none
  studentId : Option Nat := none
  totalHours : Option Nat := none
  usedHours : Option Nat := none
  price : Option Rat := none
  validDays : Option Nat := none
  purchasedAt : Option Nat := none
  expiresAt : Option Nat := none
  status : Option PackageStatus := none
deriving DecidableEq

/-- PUT /packages/:id (admin): merge every column present in the body into the
row.  No relation between status and the hour counters is checked, and the
hour counters themselves may be overwritten. -/
def updatePackage (p : CoursePackage) (u : PackageUpdate) : CoursePackage :=
  { id := u.id.getD p.id,
    studentId := u.studentId.getD p.studentId,
    totalHours := u.totalHours.getD p.totalHours,
    usedHours := u.usedHours.getD p.usedHours,
    price := u.price.getD p.price,
    validDays := u.validDays.getD p.validDays,
    purchasedAt := u.purchasedAt.getD p.purchasedAt,
    expiresAt := u.expiresAt.getD p.expiresAt,
    status := u.status.getD p.status }

/-- One JS day in milliseconds: expiresAt.setDate(expiresAt.getDate() + validDays)
advances the current timestamp by validDays whole days. -/
def dayMillis : Nat := 86400000

/-- Expiry computation shared by POST /packages and POST /packages/purchase. -/
def addDays (t d : Nat) : Nat := t + d * dayMillis

/-! ### Courses: conflict query, enroll, cancel, update, delete
(backend/src/routes/courses.js) -/

/-- The OR of the three clauses of the conflictingCourse prisma query, for an
existing course [s, e) against a requested interval [reqStart, reqEnd):
(startTime ≤ start ∧ endTime > start) ∨ (startTime < end ∧ endTime ≥ end) ∨
(startTime ≥ start ∧ endTime ≤ end). -/
def timeConflict (s e reqStart reqEnd : Nat) : Bool :=
  (decide (s ≤ reqStart) && decide (reqStart < e)) ||
  (decide (s < reqEnd) && decide (reqEnd ≤ e)) ||
  (decide (reqStart ≤ s) && decide (e ≤ reqEnd))

/-- The full row filter of the conflictingCourse query: same teacher, status
SCHEDULED or IN_PROGRESS, optionally excluding one course id (the update route
passes id: { not: id }), and the time clauses. -/
def conflictQueryMatch (teacherId reqStart reqEnd : Nat) (excludeId : Option Nat)
    (c : Course) : Bool :=
  excludeId.all (fun i => !(c.id == i)) &&
  c.teacherId == teacherId &&
  (decide (c.status = CourseStatus.SCHEDULED) || decide (c.status = CourseStatus.IN_PROGRESS)) &&
  timeConflict c.startTime c.endTime reqStart reqEnd

/-- prisma.course.findFirst for the conflict check. -/
def conflictingCourse (courses : List Course) (teacherId reqStart reqEnd : Nat)
    (excludeId : Option Nat) : Option Course :=
  courses.find? (conflictQueryMatch teacherId reqStart reqEnd excludeId)

/-- Rejection branches of POST /courses/:id/enroll, in source order. -/
inductive EnrollError
  | courseNotFound
  | notEnrollable
  | alreadyEnrolled
  | courseFull
deriving DecidableEq

/-- POST /courses/:id/enroll (caller role STUDENT, studentId = caller id).
Checks, in source order: course exists; status is SCHEDULED; no existing link
for the pair; currentStudents below maxStudents.  On success a $transaction
creates the link and increments the course counter. -/
def enroll (db : Db) (studentId courseId : Nat) : Except EnrollError Db :=
  match findCourse db courseId with
  | none => .error .courseNotFound
  | some course =>
    if course.status ≠ CourseStatus.SCHEDULED then .error .notEnrollable
    else if (findLink db studentId courseId).isSome then .error .alreadyEnrolled
    else if (course.maxStudents : Int) ≤ course.currentStudents then .error .courseFull
    else .ok { db with
      studentCourses := ⟨studentId, courseId⟩ :: db.studentCourses,
      courses := db.courses.map fun c =>
        if c.id = courseId then { c with currentStudents := c.currentStudents + 1 } else c }

/-- Rejection branches of DELETE /courses/:id/enroll, in source order.
(When the link exists but the course row is missing the handler dereferences a
null course and fails with a 500 before touching the store; that branch is
modelled as courseNotFound.) -/
inductive CancelError
  | enrollmentNotFound
  | courseNotFound
  | courseStarted
deriving DecidableEq

/-- DELETE /courses/:id/enroll.  Requires an existing link and a SCHEDULED
course; on success a $transaction deletes the link (by its compound key) and
decrements the course counter.  Attendance records are not touched. -/
def cancelEnrollment (db : Db) (studentId courseId : Nat) : Except CancelError Db :=
  if (findLink db studentId courseId).isNone then .error .enrollmentNotFound
  else
    match findCourse db courseId with
    | none => .error .courseNotFound
    | some course =>
      if course.status ≠ CourseStatus.SCHEDULED then .error .courseStarted
      else .ok { db with
        studentCourses :=
          db.studentCourses.filter (fun l => !(l.studentId == studentId && l.courseId == courseId)),
        courses := db.courses.map fun c =>
          if c.id = courseId then { c with currentStudents := c.currentStudents - 1 } else c }

/-- The non-string columns of a course row that a PUT /courses/:id body may
carry.  The handler assigns updateData = req.body and passes it straight to
prisma.course.update (data: updateData); express-validator only checks title,
description, startTime, endTime, maxStudents, classroom and status but strips
nothing, so every model column is writable — including currentStudents. -/
structure CourseUpdate where
  id : Option Nat := none
  teacherId : Option Nat := none
  startTime : Option Nat := none
  endTime : Option Nat := none
  maxStudents : Option Nat := none
  currentStudents : Option Int := none
  status : Option CourseStatus := none
deriving DecidableEq

/-- Rejection branches of PUT /courses/:id, in source order. -/
inductive UpdateCourseError
  | courseNotFound
  | forbidden
  | invalidTimes
  | timeConflictFound
deriving DecidableEq

/-- The prisma course.update call: merge every column present in the body
into the row. -/
def applyCourseUpdate (c : Course) (u : CourseUpdate) : Course :=
  { id := u.id.getD c.id,
    teacherId := u.teacherId.getD c.teacherId,
    startTime := u.startTime.getD c.startTime,
    endTime := u.endTime.getD c.endTime,
    maxStudents := u.maxStudents.getD c.maxStudents,
    currentStudents := u.currentStudents.getD c.currentStudents,
    status := u.status.getD c.status }

/-- PUT /courses/:id.  Checks: course exists; caller is its teacher or an
admin; when a time field changes, end must be after start and the teacher must
have no conflicting SCHEDULED or IN_PROGRESS course (excluding this one, and
always against the existing row's teacher).  No check relates maxStudents to
currentStudents, and no check constrains which columns the body writes. -/
def updateCourse (db : Db) (caller : User) (courseId : Nat) (u : CourseUpdate) :
    Except UpdateCourseError Db :=
  match findCourse db courseId with
  | none => .error .courseNotFound
  | some existing =>
    if existing.teacherId ≠ caller.id ∧ caller.role ≠ Role.ADMIN then .error .forbidden
    else if u.startTime.isSome ∨ u.endTime.isSome then
      if u.endTime.getD existing.endTime ≤ u.startTime.getD existing.startTime then
        .error .invalidTimes
      else if (conflictingCourse db.courses existing.teacherId
          (u.startTime.getD existing.startTime) (u.endTime.getD existing.endTime)
          (some courseId)).isSome then
        .error .timeConflictFound
      else .ok { db with courses := db.courses.map fun c =>
          if c.id = courseId then applyCourseUpdate c u else c }
    else .ok { db with courses := db.courses.map fun c =>
        if c.id = courseId then applyCourseUpdate c u else c }

/-- Rejection branches of DELETE /courses/:id, in source order. -/
inductive DeleteCourseError
  | courseNotFound
  | forbidden
  | notDeletable
deriving DecidableEq

/-- DELETE /courses/:id.  Rejected for IN_PROGRESS or COMPLETED courses;
otherwise deletes the enrollment links of the course and then the course. -/
def deleteCourse (db : Db) (caller : User) (courseId : Nat) : Except DeleteCourseError Db :=
  match findCourse db courseId with
  | none => .error .courseNotFound
  | some course =>
    if course.teacherId ≠ caller.id ∧ caller.role ≠ Role.ADMIN then .error .forbidden
    else if course.status = CourseStatus.IN_PROGRESS ∨ course.status = CourseStatus.COMPLETED then
      .error .notDeletable
    else .ok { db with
      studentCourses := db.studentCourses.filter (fun l => !(l.courseId == courseId)),
      courses := db.courses.filter (fun c => !(c.id == courseId)) }

/-! ### Attendance: POST /attendance and POST /attendance/batch
(backend/src/routes/attendance.js) -/

/-- Rejection branches of POST /attendance, in source order. -/
inductive AttendanceError
  | invalidStudent
  | courseNotFound
  | forbidden
  | notEnrolled
  | duplicateRecord
deriving DecidableEq

/-- POST /attendance (caller role ADMIN or TEACHER).  Checks, in source order:
the target user exists with role STUDENT; the course exists; the caller is the
teacher of the course or an admin; an enrollment link exists for the pair; no
attendance record for the pair exists yet.  On success one record is created. -/
def createAttendance (db : Db) (caller : User) (studentId courseId : Nat)
    (status : AttendanceStatus) (now : Nat) : Except AttendanceError Db :=
  match findUser db studentId with
  | none => .error .invalidStudent
  | some student =>
    if student.role ≠ Role.STUDENT then .error .invalidStudent
    else match findCourse db courseId with
    | none => .error .courseNotFound
    | some course =>
      if course.teacherId ≠ caller.id ∧ caller.role ≠ Role.ADMIN then .error .forbidden
      else if (findLink db studentId courseId).isNone then .error .notEnrolled
      else if (findAttendance db studentId courseId).isSome then .error .duplicateRecord
      else .ok { db with
        attendanceRecords := ⟨studentId, courseId, status, now⟩ :: db.attendanceRecords }

/-- One entry of the records array of POST /attendance/batch. -/
structure BatchEntry where
  studentId : Nat
  status : AttendanceStatus
deriving DecidableEq

/-- Rejection branches of POST /attendance/batch, in source order. -/
inductive BatchError
  | courseNotFound
  | forbidden
  | invalidStudents
  | notEnrolled
  | duplicateRecords
deriving DecidableEq

/-- POST /attendance/batch.  The three validation steps compare result-set
lengths against the length of the listed studentIds array: users with role
STUDENT and id among the listed ids; enrollment links of the course whose
student is listed; existing attendance records of the course whose student is
listed (must be empty).  When all pass, createMany appends one record per
listed entry; otherwise nothing is written. -/
def batchCreateAttendance (db : Db) (caller : User) (courseId : Nat)
    (entries : List BatchEntry) (now : Nat) : Except BatchError Db :=
  match findCourse db courseId with
  | none => .error .courseNotFound
  | some course =>
    if course.teacherId ≠ caller.id ∧ caller.role ≠ Role.ADMIN then .error .forbidden
    else if (db.users.filter (fun u => (entries.map (·.studentId)).contains u.id &&
        decide (u.role = Role.STUDENT))).length ≠ (entries.map (·.studentId)).length then
      .error .invalidStudents
    else if (db.studentCourses.filter (fun l =>
        (entries.map (·.studentId)).contains l.studentId &&
        l.courseId == courseId)).length ≠ (entries.map (·.studentId)).length then
      .error .notEnrolled
    else if 0 < (db.attendanceRecords.filter (fun r => r.courseId == courseId &&
        (entries.map (·.studentId)).contains r.studentId)).length then
      .error .duplicateRecords
    else .ok { db with
      attendanceRecords := db.attendanceRecords ++
        entries.map (fun en => ⟨en.studentId, courseId, en.status, now⟩) }

/-! ### Package purchase: POST /packages/purchase (backend/src/routes/packages.js) -/

/-- POST /packages/purchase (caller role STUDENT).  After input validation the
handler runs one $transaction that creates the package (usedHours and status
take their schema defaults, zero and ACTIVE) and a payment with status PAID for
the package price; expiresAt is the current time plus validDays days.  The
fresh row ids are parameters of the model. -/
def purchasePackage (db : Db) (studentId totalHours : Nat) (price : Rat)
    (validDays : Nat) (method : PayMethod) (now pkgId payId : Nat) : Db :=
  let pkg : CoursePackage :=
    { id := pkgId, studentId := studentId, totalHours := totalHours, usedHours := 0,
      price := price, validDays := validDays, purchasedAt := now,
      expiresAt := addDays now validDays, status := PackageStatus.ACTIVE }
  let pay : Payment :=
    { id := payId, amount := price, method := method, status := PaymentStatus.PAID,
      studentId := studentId, packageId := some pkg.id, paidAt := now }
  { db with packages := pkg :: db.packages, payments := pay :: db.payments }

/-! ### Statistics rates (backend/src/routes/attendance.js and statistics.js) -/

/-- Number.prototype.toFixed(2) followed by parseFloat: the value rounded to
two decimal places (the formatter rounds to the nearest hundredth; its
float-level tie behaviour is modelled as round-half-up over the exact rational). -/
def toFixed2 (q : Rat) : Rat := (round (q * 100) : Rat) / 100

/-- GET /attendance/course/:courseId/statistics: the reported attendanceRate is
the count of all attendance records of the course over the count of enrolled
students, as a percentage, and zero when no student is enrolled. -/
def courseAttendanceRate (totalStudents attendanceRecords : Nat) : Rat :=
  if 0 < totalStudents then toFixed2 ((attendanceRecords : Rat) / (totalStudents : Rat) * 100)
  else 0

/-- GET /statistics/daily-consumption: attendanceRate per day is the PRESENT
count over the total record count, as a percentage, and zero when the day has
no records. -/
def dailyAttendanceRate (presentCount totalRecords : Nat) : Rat :=
  if 0 < totalRecords then toFixed2 ((presentCount : Rat) / (totalRecords : Rat) * 100)
  else 0

/-! ### List endpoints and STUDENT scoping
(GET /packages, GET /payments, GET /attendance) -/

/-- The where object built by GET /packages. -/
structure PackagesQueryWhere where
  status : Option PackageStatus
  studentId : Option Nat
deriving DecidableEq

/-- GET /packages where-construction: an optional status filter; a STUDENT
caller is always restricted to their own studentId, and only for other roles
is the studentId query parameter honoured. -/
def packagesWhere (role : Role) (callerId : Nat) (statusF : Option PackageStatus)
    (studentIdF : Option Nat) : PackagesQueryWhere :=
  let w : PackagesQueryWhere := { status := statusF, studentId := none }
  if role = Role.STUDENT then { w with studentId := some callerId }
  else
    match studentIdF with
    | some sid => { w with studentId := some sid }
    | none => w

/-- Row filter semantics of a packages where object. -/
def packageMatches (w : PackagesQueryWhere) (p : CoursePackage) : Bool :=
  (w.status.all fun s => decide (p.status = s)) &&
  (w.studentId.all fun sid => p.studentId == sid)

/-- GET /packages result page.  The orderBy clause only permutes the filtered
rows and is omitted; skip and take implement the pagination. -/
def listPackages (db : Db) (role : Role) (callerId : Nat) (statusF : Option PackageStatus)
    (studentIdF : Option Nat) (skip take : Nat) : List CoursePackage :=
  (((db.packages.filter (packageMatches (packagesWhere role callerId statusF studentIdF))).drop
    skip).take take)

/-- The where object built by GET /payments. -/
structure PaymentsQueryWhere where
  status : Option PaymentStatus
  method : Option PayMethod
  studentId : Option Nat
  paidAtGte : Option Nat
  paidAtLte : Option Nat
deriving DecidableEq

/-- GET /payments where-construction: status, method, studentId and paidAt
range filters are taken from the query, then a STUDENT caller has the
studentId condition overwritten with their own id. -/
def paymentsWhere (role : Role) (callerId : Nat) (statusF : Option PaymentStatus)
    (methodF : Option PayMethod) (studentIdF startDate endDate : Option Nat) :
    PaymentsQueryWhere :=
  let w : PaymentsQueryWhere :=
    { status := statusF, method := methodF, studentId := studentIdF,
      paidAtGte := startDate, paidAtLte := endDate }
  if role = Role.STUDENT then { w with studentId := some callerId } else w

/-- Row filter semantics of a payments where object. -/
def paymentMatches (w : PaymentsQueryWhere) (p : Payment) : Bool :=
  (w.status.all fun s => decide (p.status = s)) &&
  (w.method.all fun m => decide (p.method = m)) &&
  (w.studentId.all fun sid => p.studentId == sid) &&
  (w.paidAtGte.all fun t => decide (t ≤ p.paidAt)) &&
  (w.paidAtLte.all fun t => decide (p.paidAt ≤ t))

/-- GET /payments result page (orderBy omitted as above). -/
def listPayments (db : Db) (role : Role) (callerId : Nat) (statusF : Option PaymentStatus)
    (methodF : Option PayMethod) (studentIdF startDate endDate : Option Nat)
    (skip take : Nat) : List Payment :=
  (((db.payments.filter
      (paymentMatches (paymentsWhere role callerId statusF methodF studentIdF startDate endDate))).drop
    skip).take take)

/-- The where object built by GET /attendance. -/
structure AttendanceQueryWhere where
  courseId : Option Nat
  studentId : Option Nat
  status : Option AttendanceStatus
  recordedAtGte : Option Nat
  recordedAtLte : Option Nat
deriving DecidableEq

/-- GET /attendance where-construction: courseId, studentId, status and
recordedAt range filters from the query, then a STUDENT caller has the
studentId condition overwritten with their own id. -/
def attendanceWhere (role : Role) (callerId : Nat) (courseIdF studentIdF : Option Nat)
    (statusF : Option AttendanceStatus) (startDate endDate : Option Nat) :
    AttendanceQueryWhere :=
  let w : AttendanceQueryWhere :=
    { courseId := courseIdF, studentId := studentIdF, status := statusF,
      recordedAtGte := startDate, recordedAtLte := endDate }
  if role = Role.STUDENT then { w with studentId := some callerId } else w

/-- Row filter semantics of an attendance where object. -/
def attendanceRecordMatches (w : AttendanceQueryWhere) (r : AttendanceRecord) : Bool :=
  (w.courseId.all fun cid => r.courseId == cid) &&
  (w.studentId.all fun sid => r.studentId == sid) &&
  (w.status.all fun s => decide (r.status = s)) &&
  (w.recordedAtGte.all fun t => decide (t ≤ r.recordedAt)) &&
  (w.recordedAtLte.all fun t => decide (r.recordedAt ≤ t))

/-- GET /attendance result page (orderBy omitted as above). -/
def listAttendance (db : Db) (role : Role) (callerId : Nat) (courseIdF studentIdF : Option Nat)
    (statusF : Option AttendanceStatus) (startDate endDate : Option Nat)
    (skip take : Nat) : List AttendanceRecord :=
  (((db.attendanceRecords.filter
      (attendanceRecordMatches
        (attendanceWhere role callerId courseIdF studentIdF statusF startDate endDate))).drop
    skip).take take)

/-! ### Operation wrapper and store invariants -/

/-- A request that fails leaves the store unchanged (every rejection above
happens before any write). -/
def orKeep {ε : Type} (db : Db) : Except ε Db → Db
  | .ok db' => db'
  | .error _ => db

/-- The four course-related mutations of claim C2 as one operation type. -/
inductive CourseOp
  | enrollOp (studentId courseId : Nat)
  | cancelOp (studentId courseId : Nat)
  | updateOp (caller : User) (courseId : Nat) (u : CourseUpdate)
  | deleteOp (caller : User) (courseId : Nat)
deriving DecidableEq

/-- Whether the operation is a PUT /courses/:id request. -/
def CourseOp.isUpdateOp : CourseOp → Bool
  | .updateOp _ _ _ => true
  | _ => false

/-- The operation leaves the bookkeeping columns alone: a course-update body
naming neither id nor currentStudents; enroll, cancel and delete always
qualify. -/
def CourseOp.keepsBookkeeping : CourseOp → Prop
  | .updateOp _ _ u => u.id = none ∧ u.currentStudents = none
  | _ => True

instance : DecidablePred CourseOp.keepsBookkeeping := fun op => by
  cases op with
  | enrollOp s c => exact inferInstanceAs (Decidable True)
  | cancelOp s c => exact inferInstanceAs (Decidable True)
  | updateOp caller c u =>
    exact inferInstanceAs (Decidable (u.id = none ∧ u.currentStudents = none))
  | deleteOp caller c => exact inferInstanceAs (Decidable True)

/-- Run one operation, keeping the store unchanged on rejection. -/
def runCourseOp (db : Db) : CourseOp → Db
  | .enrollOp sid cid => orKeep db (enroll db sid cid)
  | .cancelOp sid cid => orKeep db (cancelEnrollment db sid cid)
  | .updateOp caller cid u => orKeep db (updateCourse db caller cid u)
  | .deleteOp caller cid => orKeep db (deleteCourse db caller cid)

/-- Number of enrollment links of a course. -/
def linkCount (links : List StudentCourse) (courseId : Nat) : Nat :=
  (links.filter (fun l => l.courseId == courseId)).length

/-- Store well-formedness: course ids are unique (findUnique keys) and the
enrollment table has no duplicate (studentId, courseId) rows (compound unique
constraint). -/
def dbWF (db : Db) : Prop :=
  (db.courses.map Course.id).Nodup ∧ db.studentCourses.Nodup

/-- The counter mirror invariant: every course's currentStudents equals the
number of its enrollment links. -/
def enrollmentCountInv (db : Db) : Prop :=
  ∀ c ∈ db.courses, c.currentStudents = (linkCount db.studentCourses c.id : Int)

/-- The capacity invariant: no course's currentStudents exceeds maxStudents. -/
def capacityInv (db : Db) : Prop :=
  ∀ c ∈ db.courses, c.currentStudents ≤ (c.maxStudents : Int)

instance : DecidablePred dbWF := fun db => by unfold dbWF; infer_instance

instance : DecidablePred enrollmentCountInv := fun db => by
  unfold enrollmentCountInv; infer_instance

instance : DecidablePred capacityInv := fun db => by unfold capacityInv; infer_instance

/-! ### C1: consume-hours behaviour -/

/-- The twenty-hour lesson package of the spec scenario, parameterised by its
used hours and status; it expires one day after time zero. -/
def scenarioPkg (used : Nat) (st : PackageStatus) : CoursePackage :=
  { id := 1, studentId := 2, totalHours := 20, usedHours := used, price := 0,
    validDays := 30, purchasedAt := 0, expiresAt := dayMillis, status := st }

/-- C1 counterexample: running the claim scenario from {total=20, used=0},
the first three consumes behave as claimed, but the final consume of 1 hour is
rejected with the package-unavailable error (the status check fires first on
the now COMPLETED package), not with the insufficient-hours error. -/
theorem c1_consume_scenario_error_mismatch :
    consumeHours (scenarioPkg 0 .ACTIVE) 5 0 true = .ok (scenarioPkg 5 .ACTIVE) ∧
    consumeHours (scenarioPkg 5 .ACTIVE) 5 0 true = .ok (scenarioPkg 10 .ACTIVE) ∧
    consumeHours (scenarioPkg 10 .ACTIVE) 10 0 true = .ok (scenarioPkg 20 .COMPLETED) ∧
    consumeHours (scenarioPkg 20 .COMPLETED) 1 0 true = .error ConsumeError.packageUnavailable ∧
    ConsumeError.packageUnavailable ≠ ConsumeError.insufficientHours := by
  decide

/-- C1 (amended): for every consume request with hours ≥ 1 on an existing
course, the request succeeds exactly when the package is ACTIVE, not yet
expired, and has enough remaining hours; on success usedHours grows by exactly
the request and the status becomes COMPLETED exactly when the new usedHours
reaches totalHours.  The claim scenario holds except that the final consume of
1 hour is rejected with the package-unavailable error (not insufficient-hours),
because the package is already COMPLETED. -/
theorem consume_hours_correct :
    (∀ (p : CoursePackage) (hours now : Nat), 1 ≤ hours →
      ((consumeHours p hours now true).isOk = true ↔
        (p.status = PackageStatus.ACTIVE ∧ now ≤ p.expiresAt ∧
          (hours : Int) ≤ (p.totalHours : Int) - (p.usedHours : Int))) ∧
      (∀ q, consumeHours p hours now true = .ok q →
        q.usedHours = p.usedHours + hours ∧ q.totalHours = p.totalHours ∧
        q.status = (if p.totalHours ≤ p.usedHours + hours then PackageStatus.COMPLETED
                    else PackageStatus.ACTIVE))) ∧
    (consumeHours (scenarioPkg 0 .ACTIVE) 5 0 true = .ok (scenarioPkg 5 .ACTIVE) ∧
     consumeHours (scenarioPkg 5 .ACTIVE) 5 0 true = .ok (scenarioPkg 10 .ACTIVE) ∧
     consumeHours (scenarioPkg 10 .ACTIVE) 10 0 true = .ok (scenarioPkg 20 .COMPLETED) ∧
     consumeHours (scenarioPkg 20 .COMPLETED) 1 0 true = .error ConsumeError.packageUnavailable) := by
  constructor
  · intro p hours now _
    constructor
    · unfold consumeHours
      split_ifs with h1 h2 h3 h4
      · simp only [Except.isOk, Except.toBool, Bool.false_eq_true, false_iff]
        rintro ⟨ha, -, -⟩
        exact h1 ha
      · simp only [Except.isOk, Except.toBool, Bool.false_eq_true, false_iff]
        rintro ⟨-, hb, -⟩
        omega
      · simp only [Except.isOk, Except.toBool, Bool.false_eq_true, false_iff]
        rintro ⟨-, -, hc⟩
        omega
      · simp at h4
      · simp only [Except.isOk, Except.toBool, true_iff]
        exact ⟨not_not.mp h1, by omega, by omega⟩
    · intro q hq
      unfold consumeHours at hq
      split_ifs at hq with h1 h2 h3
      simp only [Except.ok.injEq] at hq
      subst hq
      refine ⟨rfl, rfl, rfl⟩
  · decide

/-- Witness for consume_hours_correct at a concrete ACTIVE package. -/
theorem consume_hours_correct_witness :
    (consumeHours (scenarioPkg 0 PackageStatus.ACTIVE) 5 0 true).isOk = true :=
  ((consume_hours_correct.1 (scenarioPkg 0 PackageStatus.ACTIVE) 5 0
    (by decide)).1).mpr (by decide)

/-! ### C3: the teacher time-conflict predicate -/

/-- The existing 10:00-12:00 course of teacher 7 in the spec scenario. -/
def scenarioCourse : Course :=
  { id := 1, teacherId := 7, startTime := 10, endTime := 12, maxStudents := 20,
    currentStudents := 0, status := CourseStatus.SCHEDULED }

/-- C3: for well-formed intervals (start before end on both sides) the
three-clause conflict condition of the create and update routes holds exactly
when the half-open intervals [s, e) and [reqStart, reqEnd) intersect, that is
exactly when s < reqEnd and reqStart < e; and against an existing 10:00-12:00
course of the same teacher the conflict query flags 11:00-13:00 but not
12:00-13:00. -/
theorem time_conflict_iff_overlap :
    (∀ s e reqStart reqEnd : Nat, s < e → reqStart < reqEnd →
      (timeConflict s e reqStart reqEnd = true ↔ (s < reqEnd ∧ reqStart < e))) ∧
    (conflictingCourse [scenarioCourse] 7 11 13 none = some scenarioCourse ∧
     conflictingCourse [scenarioCourse] 7 12 13 none = none) := by
  constructor
  · intro s e a b hse hab
    unfold timeConflict
    simp only [Bool.or_eq_true, Bool.and_eq_true, decide_eq_true_eq]
    omega
  · decide

/-- Witness for time_conflict_iff_overlap at the 10:00-12:00 vs 11:00-13:00
scenario times. -/
theorem time_conflict_iff_overlap_witness :
    timeConflict 10 12 11 13 = true :=
  (time_conflict_iff_overlap.1 10 12 11 13 (by decide) (by decide)).mpr (by decide)

/-! ### C4: package hour and status invariants -/

/-- C4 counterexample: the admin package-update endpoint stores the raw
request body, so it resets a COMPLETED package with usedHours = totalHours
back to ACTIVE, and a body naming usedHours writes the counter directly and
pushes usedHours above totalHours. -/
theorem c4_update_reactivates_completed_package :
    (scenarioPkg 20 PackageStatus.COMPLETED).totalHours ≤
      (scenarioPkg 20 PackageStatus.COMPLETED).usedHours ∧
    (scenarioPkg 20 PackageStatus.COMPLETED).status = PackageStatus.COMPLETED ∧
    (updatePackage (scenarioPkg 20 PackageStatus.COMPLETED)
      { status := some PackageStatus.ACTIVE }).status = PackageStatus.ACTIVE ∧
    PackageStatus.ACTIVE ≠ PackageStatus.COMPLETED ∧
    (updatePackage (scenarioPkg 0 PackageStatus.ACTIVE)
      { usedHours := some 50 }).usedHours = 50 ∧
    (updatePackage (scenarioPkg 0 PackageStatus.ACTIVE)
      { usedHours := some 50 }).totalHours = 20 ∧
    ¬((updatePackage (scenarioPkg 0 PackageStatus.ACTIVE)
      { usedHours := some 50 }).usedHours ≤
        (updatePackage (scenarioPkg 0 PackageStatus.ACTIVE)
          { usedHours := some 50 }).totalHours) := by
  decide

/-- C4 (amended): every successful consume-hours write keeps usedHours within
totalHours, never decreases usedHours and marks the package COMPLETED whenever
the hours are exhausted, and once usedHours ≥ totalHours every further consume
is rejected; the admin package-update endpoint preserves the hour counters
only when the request body does not name them — it stores the raw body, so it
can set usedHours above totalHours and can return a COMPLETED package's status
to ACTIVE. -/
theorem package_hours_never_exceed_total :
    (∀ p hours now ce q, consumeHours p hours now ce = .ok q →
      q.usedHours ≤ q.totalHours ∧ p.usedHours ≤ q.usedHours ∧ q.totalHours = p.totalHours ∧
      (q.totalHours ≤ q.usedHours → q.status = PackageStatus.COMPLETED)) ∧
    (∀ p u, u.usedHours = none → u.totalHours = none →
      (updatePackage p u).usedHours = p.usedHours ∧
      (updatePackage p u).totalHours = p.totalHours) ∧
    (∀ p hours now ce, 1 ≤ hours → p.totalHours ≤ p.usedHours →
      ∃ e, consumeHours p hours now ce = .error e) := by
  refine ⟨?_, ?_, ?_⟩
  · intro p hours now ce q hq
    unfold consumeHours at hq
    split_ifs at hq with h1 h2 h3 h4
    simp only [Except.ok.injEq] at hq
    subst hq
    refine ⟨show p.usedHours + hours ≤ p.totalHours by omega,
      show p.usedHours ≤ p.usedHours + hours by omega, rfl, ?_⟩
    intro hle
    have hle' : p.totalHours ≤ p.usedHours + hours := hle
    show (if p.totalHours ≤ p.usedHours + hours then PackageStatus.COMPLETED
          else PackageStatus.ACTIVE) = PackageStatus.COMPLETED
    rw [if_pos hle']
  · intro p u h1 h2
    constructor
    · simp [updatePackage, h1]
    · simp [updatePackage, h2]
  · intro p hours now ce hh hfull
    unfold consumeHours
    split_ifs with h1 h2 h3 h4
    · exact ⟨_, rfl⟩
    · exact ⟨_, rfl⟩
    · exact ⟨_, rfl⟩
    · exact ⟨_, rfl⟩
    · exact absurd (by omega : (p.totalHours : Int) - (p.usedHours : Int) < (hours : Int)) h3

/-- Witness for package_hours_never_exceed_total: the exhausted package from
the claim scenario rejects any further consume. -/
theorem package_hours_never_exceed_total_witness :
    ∃ e, consumeHours (scenarioPkg 20 PackageStatus.COMPLETED) 1 0 true = .error e :=
  package_hours_never_exceed_total.2.2 (scenarioPkg 20 PackageStatus.COMPLETED) 1 0 true
    (by decide) (by decide)

/-! ### C8: package purchase -/

/-- C8: the purchase transaction adds exactly one package and one payment to
the store in a single step; the payment is PAID, carries the package price as
its amount and references the new package, and the package expires exactly
validDays days after the current time, starting with zero used hours. -/
theorem purchase_creates_package_and_payment (db : Db) (sid th : Nat) (price : Rat)
    (vd : Nat) (m : PayMethod) (now pkgId payId : Nat) :
    ∃ pkg pay, purchasePackage db sid th price vd m now pkgId payId =
        { db with packages := pkg :: db.packages, payments := pay :: db.payments } ∧
      pay.amount = price ∧ pay.status = PaymentStatus.PAID ∧ pay.packageId = some pkg.id ∧
      pay.studentId = sid ∧ pkg.studentId = sid ∧ pkg.price = price ∧
      pkg.expiresAt = now + vd * dayMillis ∧ pkg.usedHours = 0 ∧
      pkg.status = PackageStatus.ACTIVE := by
  refine ⟨_, _, rfl, rfl, rfl, rfl, rfl, rfl, rfl, rfl, rfl, rfl⟩

/-! ### C9: statistics rates -/

/-- C9: both rate computations report zero when their denominator is zero, and
for a positive denominator report the count ratio as a percentage (rounded to
two decimals by the toFixed formatter); sample: 2 PRESENT of 3 records gives
66.67. -/
theorem rate_zero_denominator_safe :
    (∀ p t : Nat, (t = 0 → dailyAttendanceRate p t = 0) ∧
      (0 < t → dailyAttendanceRate p t = toFixed2 ((p : Rat) / (t : Rat) * 100))) ∧
    (∀ s n : Nat, (s = 0 → courseAttendanceRate s n = 0) ∧
      (0 < s → courseAttendanceRate s n = toFixed2 ((n : Rat) / (s : Rat) * 100))) ∧
    dailyAttendanceRate 0 0 = 0 ∧ courseAttendanceRate 0 5 = 0 ∧
    dailyAttendanceRate 2 3 = 6667 / 100 := by
  refine ⟨?_, ?_, ?_, ?_, ?_⟩
  · intro p t
    constructor
    · intro h
      subst h
      simp [dailyAttendanceRate]
    · intro h
      simp [dailyAttendanceRate, h]
  · intro s n
    constructor
    · intro h
      subst h
      simp [courseAttendanceRate]
    · intro h
      simp [courseAttendanceRate, h]
  · simp [dailyAttendanceRate]
  · simp [courseAttendanceRate]
  · have hr : round ((20000 : Rat) / 3) = 6667 := by
      rw [round_eq]
      apply Int.floor_eq_iff.mpr
      constructor <;> norm_num
    unfold dailyAttendanceRate toFixed2
    rw [if_pos (by norm_num)]
    have harg : ((2 : Nat) : Rat) / ((3 : Nat) : Rat) * 100 * 100 = (20000 : Rat) / 3 := by
      norm_num
    rw [harg, hr]
    norm_num

/-- Witness for rate_zero_denominator_safe at 2 of 3 records. -/
theorem rate_zero_denominator_safe_witness :
    dailyAttendanceRate 2 3 = toFixed2 ((2 : Rat) / (3 : Rat) * 100) :=
  (rate_zero_denominator_safe.1 2 3).2 (by decide)

/-! ### C5: enroll behaviour -/

/-- Unfolding lemma: the enroll handler once the course row has been found. -/
lemma enroll_eq_of_found (db : Db) (sid cid : Nat) (course : Course)
    (hc : findCourse db cid = some course) :
    enroll db sid cid =
      (if course.status ≠ CourseStatus.SCHEDULED then .error .notEnrollable
       else if (findLink db sid cid).isSome then .error .alreadyEnrolled
       else if (course.maxStudents : Int) ≤ course.currentStudents then .error .courseFull
       else .ok { db with
         studentCourses := ⟨sid, cid⟩ :: db.studentCourses,
         courses := db.courses.map fun c =>
           if c.id = cid then { c with currentStudents := c.currentStudents + 1 } else c }) := by
  unfold enroll
  rw [hc]

/-- C5: with the target course found by id, the enroll request succeeds exactly
when the course is SCHEDULED, the student holds no existing link, and
currentStudents is below maxStudents; on success the transaction adds exactly
the one link and increments exactly that course's counter while every other
table is untouched; on any rejection the store is unchanged. -/
theorem enroll_exact_conditions (db : Db) (sid cid : Nat) (course : Course)
    (hc : findCourse db cid = some course) :
    ((enroll db sid cid).isOk = true ↔
      (course.status = CourseStatus.SCHEDULED ∧ findLink db sid cid = none ∧
        course.currentStudents < (course.maxStudents : Int))) ∧
    (∀ db', enroll db sid cid = .ok db' →
      db'.studentCourses = ⟨sid, cid⟩ :: db.studentCourses ∧
      db'.courses = db.courses.map (fun c =>
        if c.id = cid then { c with currentStudents := c.currentStudents + 1 } else c) ∧
      db'.users = db.users ∧ db'.packages = db.packages ∧ db'.payments = db.payments ∧
      db'.attendanceRecords = db.attendanceRecords) ∧
    (∀ e, enroll db sid cid = .error e → orKeep db (enroll db sid cid) = db) := by
  have he := enroll_eq_of_found db sid cid course hc
  refine ⟨?_, ?_, ?_⟩
  · rw [he]
    split_ifs with h1 h2 h3
    · simp only [Except.isOk, Except.toBool, Bool.false_eq_true, false_iff]
      rintro ⟨ha, -, -⟩
      exact h1 ha
    · simp only [Except.isOk, Except.toBool, Bool.false_eq_true, false_iff]
      rintro ⟨-, hb, -⟩
      rw [hb] at h2
      simp at h2
    · simp only [Except.isOk, Except.toBool, Bool.false_eq_true, false_iff]
      rintro ⟨-, -, hcap⟩
      omega
    · simp only [Except.isOk, Except.toBool, true_iff]
      refine ⟨not_not.mp h1, ?_, by omega⟩
      cases hfl : findLink db sid cid with
      | none => rfl
      | some l =>
        rw [hfl] at h2
        simp at h2
  · intro db' h
    rw [he] at h
    split_ifs at h with h1 h2 h3
    simp only [Except.ok.injEq] at h
    subst h
    exact ⟨rfl, rfl, rfl, rfl, rfl, rfl⟩
  · intro e h
    simp [orKeep, h]

/-- The SCHEDULED two-seat course used by the concrete enrollment stores. -/
def demoCourse : Course :=
  { id := 1, teacherId := 7, startTime := 0, endTime := 1, maxStudents := 2,
    currentStudents := 0, status := CourseStatus.SCHEDULED }

/-- A store holding just demoCourse and no enrollments. -/
def demoDb : Db :=
  { users := [], courses := [demoCourse], studentCourses := [], packages := [],
    payments := [], attendanceRecords := [] }

/-- Witness for enroll_exact_conditions: enrolling student 5 into the empty
SCHEDULED course succeeds. -/
theorem enroll_exact_conditions_witness : (enroll demoDb 5 1).isOk = true :=
  (enroll_exact_conditions demoDb 5 1 demoCourse (by decide)).1.mpr (by decide)

/-! ### C10: STUDENT callers only see their own rows -/

/-- C10: for a caller with role STUDENT, every row returned by the packages,
payments and attendance list endpoints carries the caller's own studentId, for
every combination of the remaining query filters and any pagination window; in
particular a student-supplied studentId filter for another student is
overwritten by the caller's id. -/
theorem student_lists_scoped_to_caller (db : Db) (callerId : Nat)
    (pStatusF : Option PackageStatus) (pSidF : Option Nat)
    (payStatusF : Option PaymentStatus) (payMethodF : Option PayMethod)
    (paySidF payStart payEnd : Option Nat)
    (aCourseF aSidF : Option Nat) (aStatusF : Option AttendanceStatus)
    (aStart aEnd : Option Nat) (skip take : Nat) (role : Role)
    (hrole : role = Role.STUDENT) :
    (listPackages db role callerId pStatusF pSidF skip take).all
      (fun p => p.studentId == callerId) = true ∧
    (listPayments db role callerId payStatusF payMethodF paySidF payStart payEnd
      skip take).all (fun p => p.studentId == callerId) = true ∧
    (listAttendance db role callerId aCourseF aSidF aStatusF aStart aEnd
      skip take).all (fun r => r.studentId == callerId) = true := by
  subst hrole
  refine ⟨?_, ?_, ?_⟩
  · rw [List.all_eq_true]
    intro p hp
    have hp' := List.mem_of_mem_drop (List.mem_of_mem_take hp)
    rw [List.mem_filter] at hp'
    have hm := hp'.2
    simp only [packageMatches, packagesWhere, reduceIte, Option.all_some,
      Bool.and_eq_true] at hm
    exact hm.2
  · rw [List.all_eq_true]
    intro p hp
    have hp' := List.mem_of_mem_drop (List.mem_of_mem_take hp)
    rw [List.mem_filter] at hp'
    have hm := hp'.2
    simp only [paymentMatches, paymentsWhere, reduceIte, Option.all_some,
      Bool.and_eq_true] at hm
    exact hm.1.1.2
  · rw [List.all_eq_true]
    intro r hr
    have hr' := List.mem_of_mem_drop (List.mem_of_mem_take hr)
    rw [List.mem_filter] at hr'
    have hm := hr'.2
    simp only [attendanceRecordMatches, attendanceWhere, reduceIte, Option.all_some,
      Bool.and_eq_true] at hm
    exact hm.1.1.1.2

/-- A store holding rows of two different students, 42 and 99. -/
def studentScopeDb : Db :=
  { users := [⟨42, Role.STUDENT⟩, ⟨99, Role.STUDENT⟩],
    courses := [],
    studentCourses := [],
    packages := [scenarioPkg 0 PackageStatus.ACTIVE,
      { scenarioPkg 0 PackageStatus.ACTIVE with id := 2, studentId := 42 },
      { scenarioPkg 0 PackageStatus.ACTIVE with id := 3, studentId := 99 }],
    payments := [⟨1, 100, PayMethod.CASH, PaymentStatus.PAID, 99, some 3, 0⟩,
      ⟨2, 100, PayMethod.CASH, PaymentStatus.PAID, 42, some 2, 0⟩],
    attendanceRecords := [⟨99, 1, AttendanceStatus.PRESENT, 0⟩,
      ⟨42, 1, AttendanceStatus.PRESENT, 0⟩] }

/-- Witness for student_lists_scoped_to_caller: student 42 querying with a
studentId filter naming student 99 still only receives their own rows. -/
theorem student_lists_scoped_to_caller_witness :
    (listPackages studentScopeDb Role.STUDENT 42 none (some 99) 0 10).all
      (fun p => p.studentId == 42) = true ∧
    (listPayments studentScopeDb Role.STUDENT 42 none none (some 99) none none 0 10).all
      (fun p => p.studentId == 42) = true ∧
    (listAttendance studentScopeDb Role.STUDENT 42 none (some 99) none none none 0 10).all
      (fun r => r.studentId == 42) = true :=
  student_lists_scoped_to_caller studentScopeDb 42 none (some 99) none none (some 99)
    none none none (some 99) none none none 0 10 Role.STUDENT rfl

/-! ### C2: counter bookkeeping lemmas -/

/-- A link list starting with a link of the course has one more link for it. -/
lemma linkCount_cons (a : StudentCourse) (t : List StudentCourse) (x : Nat) :
    linkCount (a :: t) x = (if a.courseId = x then 1 else 0) + linkCount t x := by
  unfold linkCount
  by_cases h : a.courseId = x
  · rw [List.filter_cons_of_pos (by simp [h])]
    simp only [linkCount, List.length_cons, if_pos h]
    omega
  · rw [List.filter_cons_of_neg (by simp [h])]
    simp [h]

/-- The course found by id is a member whose id matches. -/
lemma findCourse_mem (db : Db) (cid : Nat) (course : Course)
    (hc : findCourse db cid = some course) : course ∈ db.courses ∧ course.id = cid := by
  unfold findCourse at hc
  have hmem := List.mem_of_find?_eq_some hc
  have hp := List.find?_some hc
  simp only [beq_iff_eq] at hp
  exact ⟨hmem, hp⟩

/-- With unique course ids, any member carrying the looked-up id is the found
course. -/
lemma course_eq_of_id_eq {db : Db} (hids : (db.courses.map Course.id).Nodup)
    {c course : Course} {cid : Nat} (hc : findCourse db cid = some course)
    (hmem : c ∈ db.courses) (hid : c.id = cid) : c = course := by
  obtain ⟨hcm, hcid⟩ := findCourse_mem db cid course hc
  exact List.inj_on_of_nodup_map hids hmem hcm (by rw [hid, hcid])

/-- An empty link lookup means the pair is not in the table. -/
lemma not_mem_of_findLink_none {db : Db} {sid cid : Nat}
    (h : findLink db sid cid = none) :
    (⟨sid, cid⟩ : StudentCourse) ∉ db.studentCourses := by
  intro hmem
  unfold findLink at h
  have := List.find?_eq_none.mp h ⟨sid, cid⟩ hmem
  simp at this

/-- A successful link lookup returns exactly the pair, and it is a member. -/
lemma mem_of_findLink_some {db : Db} {sid cid : Nat} {l : StudentCourse}
    (h : findLink db sid cid = some l) :
    l = ⟨sid, cid⟩ ∧ (⟨sid, cid⟩ : StudentCourse) ∈ db.studentCourses := by
  unfold findLink at h
  have hmem := List.mem_of_find?_eq_some h
  have hp := List.find?_some h
  simp only [Bool.and_eq_true, beq_iff_eq] at hp
  have hl : l = ⟨sid, cid⟩ := by
    cases l
    simp_all
  exact ⟨hl, hl ▸ hmem⟩

/-- Filtering with a predicate that keeps every link of a course does not
change that course's link count. -/
lemma linkCount_filter_ne (q : StudentCourse → Bool) (x : Nat)
    (hkeep : ∀ l : StudentCourse, l.courseId = x → q l = true) :
    ∀ links, linkCount (links.filter q) x = linkCount links x := by
  intro links
  induction links with
  | nil => rfl
  | cons a t ih =>
    by_cases hq : q a = true
    · rw [List.filter_cons_of_pos hq, linkCount_cons, linkCount_cons, ih]
    · rw [List.filter_cons_of_neg (by simpa using hq), linkCount_cons, ih,
        if_neg (fun hax => hq (hkeep a hax))]
      omega

/-- Filtering away exactly one member of a duplicate-free link table lowers the
link count of its course by exactly one. -/
lemma linkCount_filter_remove_one (q : StudentCourse → Bool) (pair : StudentCourse)
    (hq_iff : ∀ l, q l = true ↔ l ≠ pair) :
    ∀ links : List StudentCourse, links.Nodup → pair ∈ links →
      linkCount (links.filter q) pair.courseId + 1 = linkCount links pair.courseId := by
  intro links
  induction links with
  | nil =>
    intro _ h
    cases h
  | cons a t ih =>
    intro hnd hmem
    rw [List.nodup_cons] at hnd
    by_cases ha : a = pair
    · subst ha
      rw [List.filter_cons_of_neg (fun h => ((hq_iff a).mp h) rfl)]
      have hfix : t.filter q = t := by
        rw [List.filter_eq_self]
        intro l hl
        exact (hq_iff l).mpr (fun hl2 => hnd.1 (hl2 ▸ hl))
      rw [hfix, linkCount_cons, if_pos rfl]
      omega
    · rw [List.filter_cons_of_pos ((hq_iff a).mpr ha), linkCount_cons, linkCount_cons]
      have hmem2 : pair ∈ t := by
        cases hmem with
        | head => exact absurd rfl ha
        | tail _ h => exact h
      have := ih hnd.2 hmem2
      omega

/-- Deleting the pair from a duplicate-free link table that contains it lowers
the link count of its course by exactly one. -/
lemma linkCount_remove_self (sid cid : Nat) (links : List StudentCourse)
    (hnd : links.Nodup) (hmem : (⟨sid, cid⟩ : StudentCourse) ∈ links) :
    linkCount (links.filter (fun l => !(l.studentId == sid && l.courseId == cid))) cid + 1
      = linkCount links cid :=
  linkCount_filter_remove_one (fun l => !(l.studentId == sid && l.courseId == cid))
    ⟨sid, cid⟩
    (fun l => by
      cases l
      simp [StudentCourse.mk.injEq]
      tauto)
    links hnd hmem

/-- Deleting the pair never changes the link count of a different course. -/
lemma linkCount_remove_ne (sid cid x : Nat) (h : x ≠ cid) (links : List StudentCourse) :
    linkCount (links.filter (fun l => !(l.studentId == sid && l.courseId == cid))) x
      = linkCount links x :=
  linkCount_filter_ne _ x
    (fun l hl => by
      cases l
      simp_all)
    links

/-- Deleting all links of one course never changes the count of another. -/
lemma linkCount_remove_course (cid x : Nat) (h : x ≠ cid) (links : List StudentCourse) :
    linkCount (links.filter (fun l => !(l.courseId == cid))) x = linkCount links x :=
  linkCount_filter_ne _ x
    (fun l hl => by
      cases l
      simp_all)
    links

/-- Mapping a function that never changes course ids preserves id uniqueness. -/
lemma map_id_preserving_nodup (courses : List Course) (f : Course → Course)
    (hf : ∀ c, (f c).id = c.id) (h : (courses.map Course.id).Nodup) :
    ((courses.map f).map Course.id).Nodup := by
  rw [List.map_map]
  have hfun : (Course.id ∘ f) = Course.id := funext fun c => hf c
  rw [hfun]
  exact h

/-- Unfolding lemma: the enroll handler when the course row is missing. -/
lemma enroll_eq_of_not_found (db : Db) (sid cid : Nat)
    (hc : findCourse db cid = none) : enroll db sid cid = .error .courseNotFound := by
  unfold enroll
  rw [hc]

/-- Unfolding lemma: the cancel handler once the course row has been found. -/
lemma cancel_eq_of_found (db : Db) (sid cid : Nat) (course : Course)
    (hc : findCourse db cid = some course) :
    cancelEnrollment db sid cid =
      (if (findLink db sid cid).isNone then .error .enrollmentNotFound
       else if course.status ≠ CourseStatus.SCHEDULED then .error .courseStarted
       else .ok { db with
         studentCourses := db.studentCourses.filter
           (fun l => !(l.studentId == sid && l.courseId == cid)),
         courses := db.courses.map fun c =>
           if c.id = cid then { c with currentStudents := c.currentStudents - 1 }
           else c }) := by
  unfold cancelEnrollment
  rw [hc]

/-- A cancel request for a missing course never changes the store. -/
lemma cancel_noCourse (db : Db) (sid cid : Nat) (hc : findCourse db cid = none) :
    orKeep db (cancelEnrollment db sid cid) = db := by
  unfold cancelEnrollment
  rw [hc]
  split_ifs <;> rfl

/-- Unfolding lemma: the course update handler once the row has been found. -/
lemma update_eq_of_found (db : Db) (caller : User) (cid : Nat) (u : CourseUpdate)
    (existing : Course) (hc : findCourse db cid = some existing) :
    updateCourse db caller cid u =
      (if existing.teacherId ≠ caller.id ∧ caller.role ≠ Role.ADMIN then .error .forbidden
       else if u.startTime.isSome ∨ u.endTime.isSome then
         if u.endTime.getD existing.endTime ≤ u.startTime.getD existing.startTime then
           .error .invalidTimes
         else if (conflictingCourse db.courses existing.teacherId
             (u.startTime.getD existing.startTime) (u.endTime.getD existing.endTime)
             (some cid)).isSome then
           .error .timeConflictFound
         else .ok { db with courses := db.courses.map fun c =>
             if c.id = cid then applyCourseUpdate c u else c }
       else .ok { db with courses := db.courses.map fun c =>
           if c.id = cid then applyCourseUpdate c u else c }) := by
  unfold updateCourse
  rw [hc]

/-- Unfolding lemma: the course delete handler once the row has been found. -/
lemma delete_eq_of_found (db : Db) (caller : User) (cid : Nat) (course : Course)
    (hc : findCourse db cid = some course) :
    deleteCourse db caller cid =
      (if course.teacherId ≠ caller.id ∧ caller.role ≠ Role.ADMIN then .error .forbidden
       else if course.status = CourseStatus.IN_PROGRESS ∨
           course.status = CourseStatus.COMPLETED then .error .notDeletable
       else .ok { db with
         studentCourses := db.studentCourses.filter (fun l => !(l.courseId == cid)),
         courses := db.courses.filter (fun c => !(c.id == cid)) }) := by
  unfold deleteCourse
  rw [hc]

/-- Enrollment preserves well-formedness and the counter mirror, and preserves
the capacity bound (its guard refuses a full course). -/
lemma enroll_preserves (db : Db) (sid cid : Nat) (hwf : dbWF db)
    (hinv : enrollmentCountInv db) :
    dbWF (orKeep db (enroll db sid cid)) ∧
    enrollmentCountInv (orKeep db (enroll db sid cid)) ∧
    (capacityInv db → capacityInv (orKeep db (enroll db sid cid))) := by
  obtain ⟨hids, hlinks⟩ := hwf
  cases hfc : findCourse db cid with
  | none =>
    rw [enroll_eq_of_not_found db sid cid hfc]
    exact ⟨⟨hids, hlinks⟩, hinv, fun h => h⟩
  | some course =>
    rw [enroll_eq_of_found db sid cid course hfc]
    split_ifs with h1 h2 h3
    · exact ⟨⟨hids, hlinks⟩, hinv, fun h => h⟩
    · exact ⟨⟨hids, hlinks⟩, hinv, fun h => h⟩
    · exact ⟨⟨hids, hlinks⟩, hinv, fun h => h⟩
    · have hlinknone : findLink db sid cid = none := by
        cases hfl : findLink db sid cid with
        | none => rfl
        | some l =>
          rw [hfl] at h2
          simp at h2
      simp only [orKeep]
      refine ⟨⟨?_, ?_⟩, ?_, ?_⟩
      · exact map_id_preserving_nodup db.courses _ (fun c => by split_ifs <;> rfl) hids
      · exact List.nodup_cons.mpr ⟨not_mem_of_findLink_none hlinknone, hlinks⟩
      · intro c' hc'
        rw [List.mem_map] at hc'
        obtain ⟨c, hcmem, rfl⟩ := hc'
        by_cases hcid : c.id = cid
        · rw [if_pos hcid]
          show c.currentStudents + 1 =
            (linkCount (⟨sid, cid⟩ :: db.studentCourses) c.id : Int)
          rw [hcid, linkCount_cons]
          have hone : ((⟨sid, cid⟩ : StudentCourse).courseId = cid) := rfl
          rw [if_pos hone]
          have hcnt := hinv c hcmem
          rw [hcid] at hcnt
          omega
        · rw [if_neg hcid]
          show c.currentStudents = (linkCount (⟨sid, cid⟩ :: db.studentCourses) c.id : Int)
          rw [linkCount_cons, if_neg (fun h => hcid h.symm)]
          have hcnt := hinv c hcmem
          omega
      · intro hcap c' hc'
        rw [List.mem_map] at hc'
        obtain ⟨c, hcmem, rfl⟩ := hc'
        by_cases hcid : c.id = cid
        · rw [if_pos hcid]
          have hceq : c = course := course_eq_of_id_eq hids hfc hcmem hcid
          subst hceq
          show c.currentStudents + 1 ≤ (c.maxStudents : Int)
          omega
        · rw [if_neg hcid]
          exact hcap c hcmem

/-- Cancellation preserves well-formedness, the counter mirror, and the
capacity bound (the counter only decreases). -/
lemma cancel_preserves (db : Db) (sid cid : Nat) (hwf : dbWF db)
    (hinv : enrollmentCountInv db) :
    dbWF (orKeep db (cancelEnrollment db sid cid)) ∧
    enrollmentCountInv (orKeep db (cancelEnrollment db sid cid)) ∧
    (capacityInv db → capacityInv (orKeep db (cancelEnrollment db sid cid))) := by
  obtain ⟨hids, hlinks⟩ := hwf
  cases hfc : findCourse db cid with
  | none =>
    rw [cancel_noCourse db sid cid hfc]
    exact ⟨⟨hids, hlinks⟩, hinv, fun h => h⟩
  | some course =>
    rw [cancel_eq_of_found db sid cid course hfc]
    split_ifs with h1 h2
    · exact ⟨⟨hids, hlinks⟩, hinv, fun h => h⟩
    · exact ⟨⟨hids, hlinks⟩, hinv, fun h => h⟩
    · have hmem : (⟨sid, cid⟩ : StudentCourse) ∈ db.studentCourses := by
        cases hfl : findLink db sid cid with
        | none =>
          rw [hfl] at h1
          simp at h1
        | some l => exact (mem_of_findLink_some hfl).2
      simp only [orKeep]
      refine ⟨⟨?_, ?_⟩, ?_, ?_⟩
      · exact map_id_preserving_nodup db.courses _ (fun c => by split_ifs <;> rfl) hids
      · exact hlinks.filter _
      · intro c' hc'
        rw [List.mem_map] at hc'
        obtain ⟨c, hcmem, rfl⟩ := hc'
        by_cases hcid : c.id = cid
        · rw [if_pos hcid]
          show c.currentStudents - 1 =
            (linkCount (db.studentCourses.filter
              (fun l => !(l.studentId == sid && l.courseId == cid))) c.id : Int)
          rw [hcid]
          have hrm := linkCount_remove_self sid cid db.studentCourses hlinks hmem
          have hcnt := hinv c hcmem
          rw [hcid] at hcnt
          omega
        · rw [if_neg hcid]
          show c.currentStudents =
            (linkCount (db.studentCourses.filter
              (fun l => !(l.studentId == sid && l.courseId == cid))) c.id : Int)
          rw [linkCount_remove_ne sid cid c.id hcid]
          exact hinv c hcmem
      · intro hcap c' hc'
        rw [List.mem_map] at hc'
        obtain ⟨c, hcmem, rfl⟩ := hc'
        by_cases hcid : c.id = cid
        · rw [if_pos hcid]
          show c.currentStudents - 1 ≤ (c.maxStudents : Int)
          have := hcap c hcmem
          omega
        · rw [if_neg hcid]
          exact hcap c hcmem

/-- Course update preserves well-formedness and the counter mirror provided
the request body names neither the id nor the currentStudents column: such an
update never touches the counter or the link table.  (A body naming
currentStudents overwrites the counter directly, and the capacity bound is
never checked; see the C2 counterexample.) -/
lemma update_preserves (db : Db) (caller : User) (cid : Nat) (u : CourseUpdate)
    (huid : u.id = none) (hucur : u.currentStudents = none)
    (hwf : dbWF db) (hinv : enrollmentCountInv db) :
    dbWF (orKeep db (updateCourse db caller cid u)) ∧
    enrollmentCountInv (orKeep db (updateCourse db caller cid u)) := by
  obtain ⟨hids, hlinks⟩ := hwf
  cases hfc : findCourse db cid with
  | none =>
    have h : updateCourse db caller cid u = .error .courseNotFound := by
      unfold updateCourse
      rw [hfc]
    rw [h]
    exact ⟨⟨hids, hlinks⟩, hinv⟩
  | some existing =>
    rw [update_eq_of_found db caller cid u existing hfc]
    split_ifs with h1 h2 h3 h4
    all_goals try exact ⟨⟨hids, hlinks⟩, hinv⟩
    all_goals simp only [orKeep]
    all_goals
      refine ⟨⟨map_id_preserving_nodup db.courses _
          (fun c => by split_ifs <;> simp [applyCourseUpdate, huid]) hids, hlinks⟩, ?_⟩
    all_goals
      intro c' hc'
    all_goals
      rw [List.mem_map] at hc'
    all_goals
      obtain ⟨c, hcmem, rfl⟩ := hc'
    all_goals
      by_cases hcid : c.id = cid
    all_goals try (rw [if_pos hcid]; simp only [applyCourseUpdate, huid, hucur, Option.getD_none]; exact hinv c hcmem)
    all_goals (rw [if_neg hcid]; exact hinv c hcmem)

/-- Course deletion preserves well-formedness, the counter mirror, and the
capacity bound on the surviving courses. -/
lemma delete_preserves (db : Db) (caller : User) (cid : Nat)
    (hwf : dbWF db) (hinv : enrollmentCountInv db) :
    dbWF (orKeep db (deleteCourse db caller cid)) ∧
    enrollmentCountInv (orKeep db (deleteCourse db caller cid)) ∧
    (capacityInv db → capacityInv (orKeep db (deleteCourse db caller cid))) := by
  obtain ⟨hids, hlinks⟩ := hwf
  cases hfc : findCourse db cid with
  | none =>
    have h : deleteCourse db caller cid = .error .courseNotFound := by
      unfold deleteCourse
      rw [hfc]
    rw [h]
    exact ⟨⟨hids, hlinks⟩, hinv, fun h => h⟩
  | some course =>
    rw [delete_eq_of_found db caller cid course hfc]
    split_ifs with h1 h2
    · exact ⟨⟨hids, hlinks⟩, hinv, fun h => h⟩
    · exact ⟨⟨hids, hlinks⟩, hinv, fun h => h⟩
    · simp only [orKeep]
      refine ⟨⟨?_, ?_⟩, ?_, ?_⟩
      · exact ((List.filter_sublist db.courses).map Course.id).nodup hids
      · exact hlinks.filter _
      · intro c' hc'
        rw [List.mem_filter] at hc'
        obtain ⟨hcmem, hpred⟩ := hc'
        have hne : c'.id ≠ cid := by simpa using hpred
        rw [linkCount_remove_course cid c'.id hne]
        exact hinv c' hcmem
      · intro hcap c' hc'
        rw [List.mem_filter] at hc'
        exact hcap c' hc'.1

/-- One bookkeeping-preserving operation preserves well-formedness and the
counter mirror. -/
lemma runCourseOp_wf_inv (db : Db) (op : CourseOp) (hkb : op.keepsBookkeeping)
    (hwf : dbWF db) (hinv : enrollmentCountInv db) :
    dbWF (runCourseOp db op) ∧ enrollmentCountInv (runCourseOp db op) := by
  cases op with
  | enrollOp sid cid =>
    exact ⟨(enroll_preserves db sid cid hwf hinv).1,
      (enroll_preserves db sid cid hwf hinv).2.1⟩
  | cancelOp sid cid =>
    exact ⟨(cancel_preserves db sid cid hwf hinv).1,
      (cancel_preserves db sid cid hwf hinv).2.1⟩
  | updateOp caller cid u =>
    have hkb2 : u.id = none ∧ u.currentStudents = none := hkb
    exact update_preserves db caller cid u hkb2.1 hkb2.2 hwf hinv
  | deleteOp caller cid =>
    exact ⟨(delete_preserves db caller cid hwf hinv).1,
      (delete_preserves db caller cid hwf hinv).2.1⟩

/-- Operations other than course update trivially keep the bookkeeping
columns. -/
lemma keepsBookkeeping_of_not_update {op : CourseOp} (h : op.isUpdateOp = false) :
    op.keepsBookkeeping := by
  cases op <;> simp_all [CourseOp.isUpdateOp, CourseOp.keepsBookkeeping]

/-- Every operation except course update preserves the capacity bound. -/
lemma runCourseOp_cap (db : Db) (op : CourseOp) (hnu : op.isUpdateOp = false)
    (hwf : dbWF db) (hinv : enrollmentCountInv db) (hcap : capacityInv db) :
    capacityInv (runCourseOp db op) := by
  cases op with
  | enrollOp sid cid => exact (enroll_preserves db sid cid hwf hinv).2.2 hcap
  | cancelOp sid cid => exact (cancel_preserves db sid cid hwf hinv).2.2 hcap
  | updateOp caller cid u => simp [CourseOp.isUpdateOp] at hnu
  | deleteOp caller cid => exact (delete_preserves db caller cid hwf hinv).2.2 hcap

/-- A SCHEDULED course at its capacity of two with both matching links. -/
def c2Db : Db :=
  { users := [],
    courses := [⟨1, 7, 0, 1, 2, 2, CourseStatus.SCHEDULED⟩],
    studentCourses := [⟨5, 1⟩, ⟨6, 1⟩], packages := [], payments := [],
    attendanceRecords := [] }

/-- C2 counterexample: from a store satisfying both invariants, one admin
course-update request that lowers maxStudents to 1 succeeds without any
capacity check and leaves currentStudents = 2 above maxStudents = 1; and
because the handler stores the raw body, one admin request naming
currentStudents sets the counter to 100 with the link table untouched,
breaking the counter mirror as well. -/
theorem c2_update_breaks_capacity :
    dbWF c2Db ∧ enrollmentCountInv c2Db ∧ capacityInv c2Db ∧
    ¬ capacityInv (runCourseOp c2Db
      (CourseOp.updateOp ⟨9, Role.ADMIN⟩ 1 { maxStudents := some 1 })) ∧
    ¬ enrollmentCountInv (runCourseOp c2Db
      (CourseOp.updateOp ⟨9, Role.ADMIN⟩ 1 { currentStudents := some 100 })) := by
  decide

/-- C2 (amended): in every store with unique course ids and a duplicate-free
link table, currentStudents equals the number of enrollment links of each
course after any sequence of enroll, cancel-enrollment, course-update and
course-delete requests in which no course-update body names the id or
currentStudents columns (PUT /courses/:id stores the raw body, so a body
naming currentStudents overwrites the counter directly); and currentStudents
stays within maxStudents after any sequence avoiding course-update entirely
(a course-update request may lower maxStudents below the current enrollment
without a check). -/
theorem course_counter_invariants :
    (∀ (db : Db) (ops : List CourseOp), (∀ op ∈ ops, op.keepsBookkeeping) →
      dbWF db → enrollmentCountInv db →
      dbWF (ops.foldl runCourseOp db) ∧ enrollmentCountInv (ops.foldl runCourseOp db)) ∧
    (∀ (db : Db) (ops : List CourseOp), (∀ op ∈ ops, op.isUpdateOp = false) →
      dbWF db → enrollmentCountInv db → capacityInv db →
      capacityInv (ops.foldl runCourseOp db)) := by
  constructor
  · intro db ops
    induction ops generalizing db with
    | nil =>
      intro _ h1 h2
      exact ⟨h1, h2⟩
    | cons op rest ih =>
      intro hops h1 h2
      have hstep := runCourseOp_wf_inv db op (hops op (List.mem_cons_self op rest)) h1 h2
      exact ih (runCourseOp db op) (fun o ho => hops o (List.mem_cons_of_mem op ho))
        hstep.1 hstep.2
  · intro db ops
    induction ops generalizing db with
    | nil =>
      intro _ _ _ h
      exact h
    | cons op rest ih =>
      intro hops h1 h2 h3
      have hkb := keepsBookkeeping_of_not_update (hops op (List.mem_cons_self op rest))
      have hstep := runCourseOp_wf_inv db op hkb h1 h2
      have hcap := runCourseOp_cap db op (hops op (List.mem_cons_self op rest)) h1 h2 h3
      exact ih (runCourseOp db op) (fun o ho => hops o (List.mem_cons_of_mem op ho))
        hstep.1 hstep.2 hcap

/-- Witness for course_counter_invariants: one enrollment into the two-seat
demo course keeps all invariants. -/
theorem course_counter_invariants_witness :
    dbWF ([CourseOp.enrollOp 5 1].foldl runCourseOp demoDb) ∧
    enrollmentCountInv ([CourseOp.enrollOp 5 1].foldl runCourseOp demoDb) ∧
    capacityInv ([CourseOp.enrollOp 5 1].foldl runCourseOp demoDb) := by
  have h1 := course_counter_invariants.1 demoDb [CourseOp.enrollOp 5 1]
    (by decide) (by decide) (by decide)
  have h2 := course_counter_invariants.2 demoDb [CourseOp.enrollOp 5 1]
    (by decide) (by decide) (by decide) (by decide)
  exact ⟨h1.1, h1.2, h2⟩

/-! ### C6 and C7: attendance creation checks -/

/-- A list whose element set is as large as the list itself has no duplicates. -/
lemma nodup_of_card_toFinset {α : Type} [DecidableEq α] (l : List α)
    (h : l.toFinset.card = l.length) : l.Nodup := by
  have hd : l.dedup.length = l.length := by
    rw [← List.card_toFinset]
    exact h
  have heq := (List.dedup_sublist l).eq_of_length hd
  rw [← heq]
  exact l.nodup_dedup

/-- The count-based validation of the batch route, in pointwise form: with
unique keys among the q-rows, the filter over listed ids has as many rows as
there are listed ids exactly when the ids are pairwise distinct and every
listed id has a matching q-row. -/
lemma filter_contains_length_eq_iff {α : Type} [DecidableEq α] (xs : List α)
    (f : α → Nat) (q : α → Bool) (ids : List Nat)
    (hx : ((xs.filter q).map f).Nodup) :
    (xs.filter (fun x => ids.contains (f x) && q x)).length = ids.length ↔
      (ids.Nodup ∧ ∀ i ∈ ids, ∃ x ∈ xs, f x = i ∧ q x = true) := by
  have hcomm : xs.filter (fun x => ids.contains (f x) && q x)
      = (xs.filter q).filter (fun x => ids.contains (f x)) := by
    rw [List.filter_filter]
  rw [hcomm]
  have hGnodup : (((xs.filter q).filter (fun x => ids.contains (f x))).map f).Nodup :=
    ((List.filter_sublist (xs.filter q)).map f).nodup hx
  have hGsub : (((xs.filter q).filter (fun x => ids.contains (f x))).map f).toFinset
      ⊆ ids.toFinset := by
    intro i hi
    rw [List.mem_toFinset] at hi ⊢
    rw [List.mem_map] at hi
    obtain ⟨x, hxG, rfl⟩ := hi
    rw [List.mem_filter] at hxG
    simpa using hxG.2
  have hcardG : (((xs.filter q).filter (fun x => ids.contains (f x))).map f).toFinset.card
      = ((xs.filter q).filter (fun x => ids.contains (f x))).length := by
    rw [List.toFinset_card_of_nodup hGnodup, List.length_map]
  constructor
  · intro hlen
    have hsub_card := Finset.card_le_card hGsub
    have hcard_le := List.toFinset_card_le ids
    have heq : (((xs.filter q).filter (fun x => ids.contains (f x))).map f).toFinset
        = ids.toFinset :=
      Finset.eq_of_subset_of_card_le hGsub (by omega)
    have hids_nodup : ids.Nodup := nodup_of_card_toFinset ids (by omega)
    refine ⟨hids_nodup, ?_⟩
    intro i hi
    have hmem : i ∈ (((xs.filter q).filter (fun x => ids.contains (f x))).map f).toFinset := by
      rw [heq, List.mem_toFinset]
      exact hi
    rw [List.mem_toFinset, List.mem_map] at hmem
    obtain ⟨x, hxG, hfx⟩ := hmem
    rw [List.mem_filter] at hxG
    have hxq := List.mem_filter.mp hxG.1
    exact ⟨x, hxq.1, hfx, hxq.2⟩
  · rintro ⟨hids_nodup, hall⟩
    have hsup : ids.toFinset
        ⊆ (((xs.filter q).filter (fun x => ids.contains (f x))).map f).toFinset := by
      intro i hi
      rw [List.mem_toFinset] at hi
      obtain ⟨x, hxmem, hfx, hqx⟩ := hall i hi
      rw [List.mem_toFinset, List.mem_map]
      refine ⟨x, ?_, hfx⟩
      rw [List.mem_filter]
      refine ⟨List.mem_filter.mpr ⟨hxmem, hqx⟩, ?_⟩
      rw [hfx]
      simpa using hi
    have heq := Finset.Subset.antisymm hGsub hsup
    calc ((xs.filter q).filter (fun x => ids.contains (f x))).length
        = (((xs.filter q).filter (fun x => ids.contains (f x))).map f).toFinset.card :=
          hcardG.symm
      _ = ids.toFinset.card := by rw [heq]
      _ = ids.length := List.toFinset_card_of_nodup hids_nodup

/-- Links of one course carry pairwise distinct student ids when the link
table is duplicate-free. -/
lemma links_filter_map_nodup (links : List StudentCourse) (cid : Nat)
    (h : links.Nodup) :
    ((links.filter (fun l => l.courseId == cid)).map StudentCourse.studentId).Nodup := by
  apply List.Nodup.map_on
  · intro x hx y hy hxy
    rw [List.mem_filter] at hx hy
    have hxc : x.courseId = cid := by simpa using hx.2
    have hyc : y.courseId = cid := by simpa using hy.2
    cases x
    cases y
    simp_all
  · exact h.filter _

/-- The student-existence length check of the batch route, pointwise. -/
lemma batch_students_check_iff (db : Db) (ids : List Nat)
    (hwfu : (db.users.map User.id).Nodup) :
    (db.users.filter (fun u => ids.contains u.id && decide (u.role = Role.STUDENT))).length
        = ids.length ↔
      (ids.Nodup ∧ ∀ sid ∈ ids, ∃ u ∈ db.users, u.id = sid ∧ u.role = Role.STUDENT) := by
  rw [filter_contains_length_eq_iff db.users User.id _ ids
    (((List.filter_sublist db.users).map User.id).nodup hwfu)]
  constructor
  · rintro ⟨h1, h2⟩
    refine ⟨h1, fun sid hs => ?_⟩
    obtain ⟨u, hu, he, hq⟩ := h2 sid hs
    exact ⟨u, hu, he, by simpa using hq⟩
  · rintro ⟨h1, h2⟩
    refine ⟨h1, fun sid hs => ?_⟩
    obtain ⟨u, hu, he, hq⟩ := h2 sid hs
    exact ⟨u, hu, he, by simpa using hq⟩

/-- The enrollment length check of the batch route, pointwise. -/
lemma batch_enroll_check_iff (db : Db) (cid : Nat) (ids : List Nat)
    (hwfl : db.studentCourses.Nodup) :
    (db.studentCourses.filter (fun l =>
        ids.contains l.studentId && l.courseId == cid)).length = ids.length ↔
      (ids.Nodup ∧ ∀ sid ∈ ids, (⟨sid, cid⟩ : StudentCourse) ∈ db.studentCourses) := by
  rw [filter_contains_length_eq_iff db.studentCourses StudentCourse.studentId _ ids
    (links_filter_map_nodup db.studentCourses cid hwfl)]
  constructor
  · rintro ⟨h1, h2⟩
    refine ⟨h1, fun sid hs => ?_⟩
    obtain ⟨l, hl, he, hq⟩ := h2 sid hs
    have hleq : l = ⟨sid, cid⟩ := by
      cases l
      simp_all
    exact hleq ▸ hl
  · rintro ⟨h1, h2⟩
    exact ⟨h1, fun sid hs => ⟨⟨sid, cid⟩, h2 sid hs, rfl, by simp⟩⟩

/-- The existing-record length check of the batch route, pointwise. -/
lemma batch_existing_check_iff (db : Db) (cid : Nat) (ids : List Nat) :
    (0 < (db.attendanceRecords.filter
        (fun r => r.courseId == cid && ids.contains r.studentId)).length) ↔
      ∃ r ∈ db.attendanceRecords, r.courseId = cid ∧ r.studentId ∈ ids := by
  rw [List.length_pos_iff_exists_mem]
  constructor
  · rintro ⟨r, hr⟩
    rw [List.mem_filter] at hr
    have hp := hr.2
    simp only [Bool.and_eq_true, beq_iff_eq] at hp
    exact ⟨r, hr.1, hp.1, by simpa using hp.2⟩
  · rintro ⟨r, hrm, h1, h2⟩
    exact ⟨r, List.mem_filter.mpr ⟨hrm, by simp [h1, h2]⟩⟩

/-- Unfolding lemma: the batch handler once the course row has been found. -/
lemma batch_eq_of_found (db : Db) (caller : User) (cid : Nat)
    (entries : List BatchEntry) (now : Nat) (course : Course)
    (hc : findCourse db cid = some course) :
    batchCreateAttendance db caller cid entries now =
      (if course.teacherId ≠ caller.id ∧ caller.role ≠ Role.ADMIN then .error .forbidden
       else if (db.users.filter (fun u => (entries.map (·.studentId)).contains u.id &&
           decide (u.role = Role.STUDENT))).length ≠ (entries.map (·.studentId)).length then
         .error .invalidStudents
       else if (db.studentCourses.filter (fun l =>
           (entries.map (·.studentId)).contains l.studentId &&
           l.courseId == cid)).length ≠ (entries.map (·.studentId)).length then
         .error .notEnrolled
       else if 0 < (db.attendanceRecords.filter (fun r => r.courseId == cid &&
           (entries.map (·.studentId)).contains r.studentId)).length then
         .error .duplicateRecords
       else .ok { db with
         attendanceRecords := db.attendanceRecords ++
           entries.map (fun en => ⟨en.studentId, cid, en.status, now⟩) }) := by
  unfold batchCreateAttendance
  rw [hc]

/-- Unfolding lemma: the batch handler when the course row is missing. -/
lemma batch_eq_of_not_found (db : Db) (caller : User) (cid : Nat)
    (entries : List BatchEntry) (now : Nat) (hc : findCourse db cid = none) :
    batchCreateAttendance db caller cid entries now = .error .courseNotFound := by
  unfold batchCreateAttendance
  rw [hc]

/-- A store with teacher 2, enrolled student 3 on course 1 and no attendance. -/
def attDb : Db :=
  { users := [⟨3, Role.STUDENT⟩, ⟨2, Role.TEACHER⟩],
    courses := [⟨1, 2, 0, 1, 5, 1, CourseStatus.SCHEDULED⟩],
    studentCourses := [⟨3, 1⟩], packages := [], payments := [],
    attendanceRecords := [] }

/-- C7 counterexample: a batch listing the same fully valid student twice is
rejected outright (the distinct-row count cannot match the listed length),
although no listed student fails any of the claimed validations, so the claim
that such a batch creates one record per listed student is false. -/
theorem c7_duplicate_batch_rejected :
    batchCreateAttendance attDb ⟨2, Role.TEACHER⟩ 1
      [⟨3, AttendanceStatus.PRESENT⟩, ⟨3, AttendanceStatus.PRESENT⟩] 0
      = .error BatchError.invalidStudents ∧
    (∀ en ∈ [(⟨3, AttendanceStatus.PRESENT⟩ : BatchEntry),
        ⟨3, AttendanceStatus.PRESENT⟩],
      (∃ u ∈ attDb.users, u.id = en.studentId ∧ u.role = Role.STUDENT) ∧
      (⟨en.studentId, 1⟩ : StudentCourse) ∈ attDb.studentCourses ∧
      ∀ r ∈ attDb.attendanceRecords, ¬(r.courseId = 1 ∧ r.studentId = en.studentId)) := by
  decide

/-- C7 (amended): with unique user ids and a duplicate-free link table, a
permitted batch request on an existing course succeeds exactly when the listed
student ids are pairwise distinct and every listed student exists with the
STUDENT role, is enrolled in the course, and has no attendance record for it;
on success exactly one record per listed entry is appended and nothing else
changes; on any rejection (including a batch listing the same student twice)
the store is unchanged and zero records are created. -/
theorem batch_attendance_all_or_nothing (db : Db) (caller : User) (cid : Nat)
    (entries : List BatchEntry) (now : Nat) (course : Course)
    (hwfu : (db.users.map User.id).Nodup) (hwfl : db.studentCourses.Nodup)
    (hc : findCourse db cid = some course)
    (hperm : ¬(course.teacherId ≠ caller.id ∧ caller.role ≠ Role.ADMIN)) :
    ((batchCreateAttendance db caller cid entries now).isOk = true ↔
      ((entries.map (·.studentId)).Nodup ∧
       (∀ sid ∈ entries.map (·.studentId),
         ∃ u ∈ db.users, u.id = sid ∧ u.role = Role.STUDENT) ∧
       (∀ sid ∈ entries.map (·.studentId),
         (⟨sid, cid⟩ : StudentCourse) ∈ db.studentCourses) ∧
       (∀ r ∈ db.attendanceRecords,
         ¬(r.courseId = cid ∧ r.studentId ∈ entries.map (·.studentId))))) ∧
    (∀ db', batchCreateAttendance db caller cid entries now = .ok db' →
      db'.attendanceRecords = db.attendanceRecords ++
        entries.map (fun en => ⟨en.studentId, cid, en.status, now⟩) ∧
      db'.users = db.users ∧ db'.courses = db.courses ∧
      db'.studentCourses = db.studentCourses ∧ db'.packages = db.packages ∧
      db'.payments = db.payments) ∧
    (∀ e, batchCreateAttendance db caller cid entries now = .error e →
      orKeep db (batchCreateAttendance db caller cid entries now) = db) := by
  have he := batch_eq_of_found db caller cid entries now course hc
  refine ⟨?_, ?_, ?_⟩
  · rw [he, if_neg hperm]
    split_ifs with h1 h2 h3
    · simp only [Except.isOk, Except.toBool, Bool.false_eq_true, false_iff]
      rintro ⟨hn, hs, -, -⟩
      exact h1 ((batch_students_check_iff db _ hwfu).mpr ⟨hn, hs⟩)
    · simp only [Except.isOk, Except.toBool, Bool.false_eq_true, false_iff]
      rintro ⟨hn, -, hs, -⟩
      exact h2 ((batch_enroll_check_iff db cid _ hwfl).mpr ⟨hn, hs⟩)
    · simp only [Except.isOk, Except.toBool, Bool.false_eq_true, false_iff]
      rintro ⟨-, -, -, hnone⟩
      obtain ⟨r, hrm, hrc, hrs⟩ := (batch_existing_check_iff db cid _).mp h3
      exact hnone r hrm ⟨hrc, hrs⟩
    · simp only [Except.isOk, Except.toBool, true_iff]
      have hs := (batch_students_check_iff db _ hwfu).mp (not_ne_iff.mp h1)
      have hen := (batch_enroll_check_iff db cid _ hwfl).mp (not_ne_iff.mp h2)
      refine ⟨hs.1, hs.2, hen.2, ?_⟩
      intro r hr hcon
      exact h3 ((batch_existing_check_iff db cid _).mpr ⟨r, hr, hcon.1, hcon.2⟩)
  · intro db' h
    rw [he, if_neg hperm] at h
    split_ifs at h with h1 h2 h3
    simp only [Except.ok.injEq] at h
    subst h
    exact ⟨rfl, rfl, rfl, rfl, rfl, rfl⟩
  · intro e h
    simp [orKeep, h]

/-- Witness for batch_attendance_all_or_nothing: a valid one-student batch on
the concrete store succeeds. -/
theorem batch_attendance_all_or_nothing_witness :
    (batchCreateAttendance attDb ⟨2, Role.TEACHER⟩ 1
      [⟨3, AttendanceStatus.PRESENT⟩] 0).isOk = true :=
  (batch_attendance_all_or_nothing attDb ⟨2, Role.TEACHER⟩ 1
    [⟨3, AttendanceStatus.PRESENT⟩] 0 ⟨1, 2, 0, 1, 5, 1, CourseStatus.SCHEDULED⟩
    (by decide) (by decide) (by decide) (by decide)).1.mpr (by decide)

/-- Unfolding lemma: the single attendance handler once student and course
rows have been found. -/
lemma createAttendance_eq_of_found (db : Db) (caller : User) (sid cid : Nat)
    (st : AttendanceStatus) (now : Nat) (student : User) (course : Course)
    (hu : findUser db sid = some student) (hc : findCourse db cid = some course) :
    createAttendance db caller sid cid st now =
      (if student.role ≠ Role.STUDENT then .error .invalidStudent
       else if course.teacherId ≠ caller.id ∧ caller.role ≠ Role.ADMIN then .error .forbidden
       else if (findLink db sid cid).isNone then .error .notEnrolled
       else if (findAttendance db sid cid).isSome then .error .duplicateRecord
       else .ok { db with
         attendanceRecords := ⟨sid, cid, st, now⟩ :: db.attendanceRecords }) := by
  unfold createAttendance
  rw [hu, hc]

/-- Unfolding lemma: the single attendance handler when the student row is
missing. -/
lemma createAttendance_noUser (db : Db) (caller : User) (sid cid : Nat)
    (st : AttendanceStatus) (now : Nat) (hu : findUser db sid = none) :
    createAttendance db caller sid cid st now = .error .invalidStudent := by
  unfold createAttendance
  rw [hu]

/-- The single attendance handler always rejects when the course row is
missing. -/
lemma createAttendance_noCourse (db : Db) (caller : User) (sid cid : Nat)
    (st : AttendanceStatus) (now : Nat) (student : User)
    (hu : findUser db sid = some student) (hc : findCourse db cid = none) :
    ∃ e, createAttendance db caller sid cid st now = .error e := by
  unfold createAttendance
  rw [hu, hc]
  show ∃ e, (if student.role ≠ Role.STUDENT
      then Except.error AttendanceError.invalidStudent
      else Except.error AttendanceError.courseNotFound) = Except.error e
  split_ifs
  · exact ⟨_, rfl⟩
  · exact ⟨_, rfl⟩

/-- The store after recording attendance for student 3 on course 1. -/
def c6Db1 : Db := { attDb with attendanceRecords := [⟨3, 1, AttendanceStatus.PRESENT, 0⟩] }

/-- The store after student 3 then cancels the enrollment: the link and the
course counter are gone, the attendance record is not. -/
def c6Db2 : Db :=
  { attDb with
    courses := [⟨1, 2, 0, 1, 5, 0, CourseStatus.SCHEDULED⟩],
    studentCourses := [],
    attendanceRecords := [⟨3, 1, AttendanceStatus.PRESENT, 0⟩] }

/-- C6 counterexample: record attendance for an enrolled student on a
SCHEDULED course, then cancel the enrollment; the cancellation succeeds,
deletes the link, and leaves the attendance record behind with no enrollment
link for its pair. -/
theorem c6_cancel_orphans_attendance :
    createAttendance attDb ⟨2, Role.TEACHER⟩ 3 1 AttendanceStatus.PRESENT 0 = .ok c6Db1 ∧
    cancelEnrollment c6Db1 3 1 = .ok c6Db2 ∧
    (⟨3, 1, AttendanceStatus.PRESENT, 0⟩ : AttendanceRecord) ∈ c6Db2.attendanceRecords ∧
    findLink c6Db2 3 1 = none := by
  decide

/-- C6 (amended): both attendance creation paths require and keep the
enrollment link at creation time, so the invariant holds right after creation;
but cancellation of an enrollment deletes the link without deleting attendance
records, so the invariant is not preserved by cancel-enrollment. -/
theorem attendance_requires_enrollment :
    (∀ (db : Db) (caller : User) (sid cid : Nat) (st : AttendanceStatus)
        (now : Nat) (db' : Db),
      createAttendance db caller sid cid st now = .ok db' →
      (⟨sid, cid⟩ : StudentCourse) ∈ db.studentCourses ∧
      db'.studentCourses = db.studentCourses ∧
      db'.attendanceRecords = ⟨sid, cid, st, now⟩ :: db.attendanceRecords) ∧
    (∀ (db : Db) (caller : User) (cid : Nat) (entries : List BatchEntry)
        (now : Nat) (db' : Db),
      db.studentCourses.Nodup →
      batchCreateAttendance db caller cid entries now = .ok db' →
      ∀ en ∈ entries, (⟨en.studentId, cid⟩ : StudentCourse) ∈ db.studentCourses) ∧
    (∀ (db : Db) (sid cid : Nat) (db' : Db), cancelEnrollment db sid cid = .ok db' →
      db'.attendanceRecords = db.attendanceRecords) := by
  refine ⟨?_, ?_, ?_⟩
  · intro db caller sid cid st now db' h
    cases hfu : findUser db sid with
    | none =>
      rw [createAttendance_noUser db caller sid cid st now hfu] at h
      cases h
    | some student =>
      cases hfc : findCourse db cid with
      | none =>
        obtain ⟨e, he⟩ := createAttendance_noCourse db caller sid cid st now student hfu hfc
        rw [he] at h
        cases h
      | some course =>
        rw [createAttendance_eq_of_found db caller sid cid st now student course hfu hfc] at h
        split_ifs at h with h1 h2 h3 h4
        simp only [Except.ok.injEq] at h
        subst h
        refine ⟨?_, rfl, rfl⟩
        cases hfl : findLink db sid cid with
        | none =>
          rw [hfl] at h3
          simp at h3
        | some l => exact (mem_of_findLink_some hfl).2
  · intro db caller cid entries now db' hwfl h
    cases hfc : findCourse db cid with
    | none =>
      rw [batch_eq_of_not_found db caller cid entries now hfc] at h
      cases h
    | some course =>
      rw [batch_eq_of_found db caller cid entries now course hfc] at h
      split_ifs at h with h1 h2 h3 h4
      intro en hen
      have hen2 := (batch_enroll_check_iff db cid (entries.map (·.studentId)) hwfl).mp
        (not_ne_iff.mp h3)
      exact hen2.2 en.studentId (List.mem_map_of_mem _ hen)
  · intro db sid cid db' h
    cases hfc : findCourse db cid with
    | none =>
      unfold cancelEnrollment at h
      rw [hfc] at h
      split_ifs at h
    | some course =>
      rw [cancel_eq_of_found db sid cid course hfc] at h
      split_ifs at h with h1 h2
      simp only [Except.ok.injEq] at h
      subst h
      rfl

/-- Witness for attendance_requires_enrollment: the concrete attendance
creation on the demo store keeps its enrollment link. -/
theorem attendance_requires_enrollment_witness :
    (⟨3, 1⟩ : StudentCourse) ∈ attDb.studentCourses ∧
    c6Db1.studentCourses = attDb.studentCourses ∧
    c6Db1.attendanceRecords = ⟨3, 1, AttendanceStatus.PRESENT, 0⟩ :: attDb.attendanceRecords :=
  attendance_requires_enrollment.1 attDb ⟨2, Role.TEACHER⟩ 3 1
    AttendanceStatus.PRESENT 0 c6Db1 (by decide)
